import Mathlib

/-!
terraform-provider-raptorbase: the default-bucket resource.

A shallow embedding of `main.go`, `firebase_client.go` and
`resource_default_bucket.go`, and theorems about the create / read / delete
handlers, the existence probe, the transport client and the provider schema.

Conventions of the embedding:

* A Go `error` is its message (`String`); a Go `(T, error)` pair is
  `Except String T`, and the triple returned by `checkDefaultBucketExists`
  is kept as a triple whose last component is `Option String`.
* `diag.Diagnostics` is a list; the Go `nil` diagnostics is `[]`.
* Every handler returns, next to its Go result, the list of requests it
  handed to the HTTP client, in order.
* `context.Context` is not represented: no function below inspects it.
-/

set_option autoImplicit false
set_option linter.unusedVariables false

namespace Raptorbase

/-! ## Library types used by the source -/

/-- A parsed JSON value. Numbers keep their literal text. -/
inductive JsonValue where
  | null
  | bool (b : Bool)
  | num (lit : String)
  | str (s : String)
  | arr (items : List JsonValue)
  | obj (members : List (String × JsonValue))

/-- An `*http.Request` as far as the source touches it. -/
structure Request where
  Method : String
  URL : String
  Header : List (String × String)
  Body : Option String
  deriving DecidableEq, Repr

/-- An `*http.Response`. `Body` is what `json.Decoder` reads off the body
stream as its first value: `Except.error e` when no complete first value can
be read (an empty stream, or a syntax error before the first value ends),
`Except.ok v` otherwise. `Decode` reads one value and stops, so bytes that
follow a complete first value are never looked at and are not represented:
a body made of a valid value followed by anything at all is `Except.ok v`. -/
structure Response where
  StatusCode : Int
  Body : Except String JsonValue

/-- The part of `net/http` that `http.NewRequestWithContext` depends on:
`requestError method url` is the error it returns for an invalid method or a
URL that does not parse, `none` when it accepts both. -/
structure NetHTTP where
  requestError : String → String → Option String

/-- `http.NewRequestWithContext(ctx, method, url, body)` for a non-nil
context: an empty method means GET, the header map starts empty. -/
def NewRequestWithContext (net : NetHTTP) (method url : String) (body : Option String) :
    Except String Request :=
  match net.requestError method url with
  | some err => .error err
  | none =>
    .ok { Method := if method = "" then "GET" else method, URL := url, Header := [], Body := body }

/-- `http.Header.Get` for a key already in canonical form. -/
def headerGet : List (String × String) → String → Option String
  | [], _ => none
  | (k, v) :: rest, key => if k = key then some v else headerGet rest key

/-- `http.Header.Set` for a key already in canonical form: the key's earlier
values are replaced. -/
def headerSet (h : List (String × String)) (key value : String) : List (String × String) :=
  (key, value) :: h.filter (fun kv => kv.1 ≠ key)

/-- A Go value passed as `body interface{}`, represented by what
`json.Marshal` returns on it. -/
structure GoValue where
  Marshal : Except String String

/-- One `diag.Diagnostic`. -/
structure Diagnostic where
  Severity : String
  Summary : String
  Detail : String
  deriving DecidableEq, Repr

/-- `diag.FromErr`: nil for a nil error, otherwise one error diagnostic whose
summary is the error's message. -/
def FromErr : Option String → List Diagnostic
  | none => []
  | some msg => [{ Severity := "Error", Summary := msg, Detail := "" }]

/-! ## encoding/json decoding into `struct { Bucket string "json:name" }` -/

/-- Whether an object key selects the struct field tagged `name`:
`encoding/json` takes an exact match, else a case-insensitive one. -/
def nameMatches (key : String) : Bool :=
  key == "name" || key.data.map Char.toUpper == ['N', 'A', 'M', 'E']

/-- The JSON kind named in an `UnmarshalTypeError`. -/
def jsonKind : JsonValue → String
  | .null => "null"
  | .bool _ => "bool"
  | .num _ => "number"
  | .str _ => "string"
  | .arr _ => "array"
  | .obj _ => "object"

/-- Decoding the members of an object into the struct, in order. A matching
member holding a string stores it; holding `null` it has no effect; holding
anything else it records a type error (the first one is kept) and decoding
goes on. Other members are skipped. -/
def decodeMembers : List (String × JsonValue) → String → Option String → String × Option String
  | [], bucket, err => (bucket, err)
  | (k, v) :: rest, bucket, err =>
    if nameMatches k then
      match v with
      | .str s => decodeMembers rest s err
      | .null => decodeMembers rest bucket err
      | other =>
        decodeMembers rest bucket
          (err <|> some ("json: cannot unmarshal " ++ jsonKind other ++
            " into Go struct field .name of type string"))
    else decodeMembers rest bucket err

/-- `json.NewDecoder(resp.Body).Decode(&result)` on a zero `result`: the
error, or the value of `result.Bucket` afterwards. A top-level `null` leaves
the struct untouched without error; any other non-object is a type error. -/
def Decode (body : Except String JsonValue) : Except String String :=
  match body with
  | .error err => .error err
  | .ok (.obj members) =>
    match decodeMembers members "" none with
    | (bucket, none) => .ok bucket
    | (_, some err) => .error err
  | .ok .null => .ok ""
  | .ok other =>
    .error ("json: cannot unmarshal " ++ jsonKind other ++
      " into Go value of type struct \x7b Bucket string \"json:\\\"name\\\"\" \x7d")

/-- The values of the members of an object that select the field `name`. -/
def nameValues (members : List (String × JsonValue)) : List JsonValue :=
  (members.filter (fun kv => nameMatches kv.1)).map (fun kv => kv.2)

/-- A value that a `name` member cannot hold: anything but a string or `null`. -/
def notStringOrNull : JsonValue → Bool
  | .str _ => false
  | .null => false
  | _ => true

/-- The bodies on which `Decode` fails: no JSON value can be read, or the value
is neither an object nor `null`, or it is an object with a `name` member that
holds neither a string nor `null`. -/
def bodyRejected : Except String JsonValue → Bool
  | .error _ => true
  | .ok (.obj members) => (nameValues members).any notStringOrNull
  | .ok .null => false
  | .ok _ => true

/-! ## firebase_client.go -/

/-- The `FirebaseClient` struct; `HTTPClient` is `(*http.Client).Do`. -/
structure FirebaseClient where
  HTTPClient : Request → Except String Response

/-- `FirebaseClient.DoRequest`. The second component lists the requests
handed to `HTTPClient.Do`. -/
def FirebaseClient.DoRequest (c : FirebaseClient) (net : NetHTTP) (method url : String)
    (body : Option GoValue) : Except String Response × List Request :=
  match body with
  | some b =>
    match b.Marshal with
    | .error err => (.error ("failed to marshal request body: " ++ err), [])
    | .ok bodyBytes =>
      match NewRequestWithContext net method url (some bodyBytes) with
      | .error err => (.error ("failed to create request: " ++ err), [])
      | .ok req =>
        let req := { req with Header := headerSet req.Header "Content-Type" "application/json" }
        (c.HTTPClient req, [req])
  | none =>
    match NewRequestWithContext net method url none with
    | .error err => (.error ("failed to create request: " ++ err), [])
    | .ok req => (c.HTTPClient req, [req])

/-- A `option.ClientOption` as built by the source. -/
inductive ClientOption where
  | WithScopes (scopes : List String)
  | WithCredentialsJSON (json : String)
  deriving DecidableEq, Repr

/-- `NewFirebaseClient`; `newHTTPClient` is `transport.NewHTTPClient`. -/
def NewFirebaseClient
    (newHTTPClient : List ClientOption → Except String (Request → Except String Response))
    (credentials : String) : Except String FirebaseClient :=
  let opts := [ClientOption.WithScopes
    ["https://www.googleapis.com/auth/firebase",
     "https://www.googleapis.com/auth/firebase.storage",
     "https://www.googleapis.com/auth/cloud-platform"]]
  let opts := if credentials ≠ "" then opts ++ [ClientOption.WithCredentialsJSON credentials] else opts
  match newHTTPClient opts with
  | .error err => .error err
  | .ok client => .ok { HTTPClient := client }

/-! ## helper/schema -/

/-- The `schema.ValueType` constants. -/
inductive ValueType where
  | TypeBool | TypeInt | TypeFloat | TypeString | TypeList | TypeMap | TypeSet
  deriving DecidableEq, Repr

/-- A `schema.Schema`, with the fields the source sets. -/
structure Schema where
  Typ : ValueType
  Required : Bool := false
  Optional : Bool := false
  Computed : Bool := false
  ForceNew : Bool := false
  Sensitive : Bool := false
  Default : Option String := none
  Description : String := ""
  deriving DecidableEq, Repr

/-- Lookup in a string-keyed map kept as an association list. -/
def mapGet {α : Type} : List (String × α) → String → Option α
  | [], _ => none
  | (k, v) :: rest, key => if k = key then some v else mapGet rest key

/-- Writing a key of a string-keyed map: an existing entry is overwritten in
place, a new one is appended. -/
def mapSet {α : Type} : List (String × α) → String → α → List (String × α)
  | [], key, value => [(key, value)]
  | (k, v) :: rest, key, value =>
    if k = key then (k, value) :: rest else (k, v) :: mapSet rest key value

/-- A `schema.ResourceData`: the identifier and the three levels its reader
merges. `state` holds the attributes of the prior state, `diff` the planned
values (empty when the data is built from state alone, as for a read), and
`setWriter` the values written by `Set` during the call. -/
structure ResourceData where
  id : String
  state : List (String × String)
  diff : List (String × String)
  setWriter : List (String × String)
  deriving DecidableEq, Repr

/-- `d.Id()`. -/
def ResourceData.Id (d : ResourceData) : String := d.id

/-- `d.SetId(v)`. -/
def ResourceData.SetId (d : ResourceData) (v : String) : ResourceData := { d with id := v }

/-- `d.Get(key).(string)` under schema `sm`: the value written by `Set`, else
the planned value, else the value in the prior state, else the zero value.
The schema's `Default` plays no part here: it enters only through the plan
(`schemaDiff`). (For a key outside the schema Go returns nil and the type
assertion panics; the handlers only read keys of their schema.) -/
def ResourceData.Get (sm : List (String × Schema)) (d : ResourceData) (key : String) : String :=
  match mapGet sm key with
  | none => ""
  | some _ =>
    match mapGet d.setWriter key with
    | some v => v
    | none =>
      match mapGet d.diff key with
      | some v => v
      | none => (mapGet d.state key).getD ""

/-- `d.GetOk(key)`: the value, and whether it differs from the zero value. -/
def ResourceData.GetOk (sm : List (String × Schema)) (d : ResourceData) (key : String) :
    String × Bool :=
  (d.Get sm key, d.Get sm key ≠ "")

/-- `d.Set(key, value)` for a string value: an error for a key outside the
schema, otherwise the value is stored in the set level. -/
def ResourceData.Set (sm : List (String × Schema)) (d : ResourceData) (key value : String) :
    Except String ResourceData :=
  match mapGet sm key with
  | none => .error ("Invalid address to set: " ++ key)
  | some _ => .ok { d with setWriter := mapSet d.setWriter key value }

/-- The planned values the framework computes from a configuration
(`schemaMap.Diff`), as the diff level reads them back: an attribute takes its
configured value, else the schema's `Default`; an attribute with neither has
no planned value. -/
def schemaDiff (sm : List (String × Schema)) (config : List (String × String)) :
    List (String × String) :=
  sm.filterMap (fun ks =>
    match mapGet config ks.1 with
    | some v => some (ks.1, v)
    | none => ks.2.Default.map (fun dv => (ks.1, dv)))

/-- `schemaMap.Data(nil, diff)` for the plan of a configuration: the data a
create or configure callback receives for a new object. -/
def dataFromConfig (sm : List (String × Schema)) (config : List (String × String)) :
    ResourceData :=
  { id := "", state := [], diff := schemaDiff sm config, setWriter := [] }

/-- `schemaMap.Data(state, nil)`: the data a read callback receives. -/
def dataFromState (id : String) (attrs : List (String × String)) : ResourceData :=
  { id := id, state := attrs, diff := [], setWriter := [] }

/-- A `d.Set(...)` statement whose error result is dropped. -/
def ResourceData.SetIgnoringError (sm : List (String × Schema)) (d : ResourceData)
    (key value : String) : ResourceData :=
  match d.Set sm key value with
  | .ok d1 => d1
  | .error _ => d

/-- Configuration validation by the framework, as far as `Required` goes: a
required attribute with no definition is an error. -/
def validateRequired (sm : List (String × Schema)) (config : List (String × String)) :
    List Diagnostic :=
  (sm.filter (fun ks => ks.2.Required && (mapGet config ks.1).isNone)).map
    (fun ks => { Severity := "Error", Summary := "Missing required argument",
                 Detail := "The argument \"" ++ ks.1 ++ "\" is required, but no definition was found." })

/-! ## resource_default_bucket.go -/

/-- What a lifecycle handler leaves behind: its Go return value `diags`, the
resource data `d` after the call, and the requests it sent. -/
structure Outcome where
  diags : List Diagnostic
  d : ResourceData
  sent : List Request
  deriving DecidableEq, Repr

/-- The `Schema` map of `resourceDefaultBucket()`. -/
def resourceDefaultBucketSchema : List (String × Schema) :=
  [("project",
      { Typ := .TypeString, Required := true, ForceNew := true,
        Description := "The Firebase project ID." }),
   ("bucket_name",
      { Typ := .TypeString, Computed := true,
        Description := "The name of the default bucket." }),
   ("location",
      { Typ := .TypeString, Optional := true, Default := some "us", ForceNew := true,
        Description := "The location of the default bucket (e.g., 'us')." })]

/-- The URL built by `checkDefaultBucketExists` for a project. -/
def defaultBucketURL (project : String) : String :=
  "https://firebasestorage.googleapis.com/v1alpha/projects/" ++ project ++ "/defaultBucket"

/-- `checkDefaultBucketExists`: the Go triple `(exists, name, err)`, and the
requests sent. -/
def checkDefaultBucketExists (net : NetHTTP) (client : FirebaseClient) (project : String) :
    (Bool × String × Option String) × List Request :=
  let url := "https://firebasestorage.googleapis.com/v1alpha/projects/" ++ project ++ "/defaultBucket"
  match client.DoRequest net "GET" url none with
  | (.error err, sent) => ((false, "", some ("failed to check default bucket: " ++ err)), sent)
  | (.ok resp, sent) =>
    if resp.StatusCode = 404 then ((false, "", none), sent)
    else if resp.StatusCode ≠ 200 then
      ((false, "",
        some ("unexpected status when checking default bucket: " ++ toString resp.StatusCode)), sent)
    else
      match Decode resp.Body with
      | .error err =>
        ((false, "", some ("failed to decode default bucket response: " ++ err)), sent)
      | .ok bucket => ((true, bucket, none), sent)

/-- `resourceDefaultBucketCreate`. The value first read into `bucketName` is
overwritten by the probe's second result before any use. -/
def resourceDefaultBucketCreate (net : NetHTTP) (d : ResourceData) (client : FirebaseClient) :
    Outcome :=
  let sm := resourceDefaultBucketSchema
  let project := d.Get sm "project"
  let bucketName := d.Get sm "bucket_name"
  let location := d.Get sm "location"
  let ((found, bucketName, err), sent) := checkDefaultBucketExists net client project
  match err with
  | some err => { diags := FromErr (some err), d := d, sent := sent }
  | none =>
    if found then
      let d := d.SetId ("projects/" ++ project ++ "/defaultBucket")
      let d := d.SetIgnoringError sm "bucket_name" bucketName
      { diags := [], d := d, sent := sent }
    else
      let d := d.SetId ("projects/" ++ project ++ "/defaultBucket")
      let d := d.SetIgnoringError sm "bucket_name" bucketName
      let d := d.SetIgnoringError sm "location" location
      { diags := [], d := d, sent := sent }

/-- `resourceDefaultBucketRead`. -/
def resourceDefaultBucketRead (net : NetHTTP) (d : ResourceData) (client : FirebaseClient) :
    Outcome :=
  let sm := resourceDefaultBucketSchema
  let project := d.Get sm "project"
  let ((found, bucketName, err), sent) := checkDefaultBucketExists net client project
  match err with
  | some err => { diags := FromErr (some err), d := d, sent := sent }
  | none =>
    if !found then
      { diags := [], d := d.SetId "", sent := sent }
    else
      let d := d.SetId ("projects/" ++ project ++ "/defaultBucket")
      match d.Set sm "bucket_name" bucketName with
      | .error err => { diags := FromErr (some err), d := d, sent := sent }
      | .ok d =>
        match d.Set sm "project" project with
        | .error err => { diags := FromErr (some err), d := d, sent := sent }
        | .ok d =>
          match d.Set sm "location" (d.Get sm "location") with
          | .error err => { diags := FromErr (some err), d := d, sent := sent }
          | .ok d => { diags := [], d := d, sent := sent }

/-- `resourceDefaultBucketDelete`. -/
def resourceDefaultBucketDelete (_net : NetHTTP) (d : ResourceData) (_client : FirebaseClient) :
    Outcome :=
  { diags := [], d := d.SetId "", sent := [] }

/-- A `schema.Resource` without an update handler. -/
structure Resource where
  CreateContext : NetHTTP → ResourceData → FirebaseClient → Outcome
  ReadContext : NetHTTP → ResourceData → FirebaseClient → Outcome
  DeleteContext : NetHTTP → ResourceData → FirebaseClient → Outcome
  Schema : List (String × Schema)

/-- `resourceDefaultBucket()`. -/
def resourceDefaultBucket : Resource :=
  { CreateContext := resourceDefaultBucketCreate,
    ReadContext := resourceDefaultBucketRead,
    DeleteContext := resourceDefaultBucketDelete,
    Schema := resourceDefaultBucketSchema }

/-! ## main.go -/

/-- The `Schema` map of `Provider()`. -/
def providerSchema : List (String × Schema) :=
  [("credentials", { Typ := .TypeString, Required := true, Sensitive := true })]

/-- The `ConfigureContextFunc` of `Provider()`. -/
def providerConfigure
    (newHTTPClient : List ClientOption → Except String (Request → Except String Response))
    (d : ResourceData) : Except (List Diagnostic) FirebaseClient :=
  let result :=
    match d.GetOk providerSchema "credentials" with
    | (creds, true) => NewFirebaseClient newHTTPClient creds
    | (_, false) => NewFirebaseClient newHTTPClient ""
  match result with
  | .error err => .error (FromErr (some err))
  | .ok client => .ok client

/-- A `schema.Provider`. -/
structure ProviderDef where
  Schema : List (String × Schema)
  ResourcesMap : List (String × Resource)
  ConfigureContextFunc :
    (List ClientOption → Except String (Request → Except String Response)) → ResourceData →
      Except (List Diagnostic) FirebaseClient

/-- `Provider()`. -/
def Provider : ProviderDef :=
  { Schema := providerSchema,
    ResourcesMap := [("firebase_default_bucket", resourceDefaultBucket)],
    ConfigureContextFunc := providerConfigure }

/-! ## Sample inputs -/

/-- A `net/http` that accepts every method and URL. -/
def netOk : NetHTTP := { requestError := fun _ _ => none }

/-- A remote that answers every request with the given status and body. -/
def clientAnswering (status : Int) (body : Except String JsonValue) : FirebaseClient :=
  { HTTPClient := fun _ => .ok { StatusCode := status, Body := body } }

/-- A remote that cannot be reached. -/
def clientUnreachable : FirebaseClient :=
  { HTTPClient := fun r =>
      .error ("Get \"" ++ r.URL ++ "\": dial tcp 192.0.2.1:443: connect: connection refused") }

/-- The documented 200 body for project `demo-proj`. -/
def demoBody : JsonValue :=
  .obj [("name", .str "projects/demo-proj/defaultBucket"),
        ("location", .str "US"),
        ("bucket", .obj [("name", .str "projects/demo-proj/buckets/demo-proj.firebasestorage.app")]),
        ("storageClass", .str "STANDARD")]

/-- The data for a new object declared as `project = "demo-proj"` and nothing
else. -/
def demoData : ResourceData :=
  dataFromConfig resourceDefaultBucketSchema [("project", "demo-proj")]

/-- The data built from the prior state of an adopted bucket. -/
def demoState : ResourceData :=
  dataFromState "projects/demo-proj/defaultBucket"
    [("project", "demo-proj"), ("bucket_name", "old-name"), ("location", "eu")]

/-- The data built from a prior state that holds no location. -/
def demoStateNoLocation : ResourceData :=
  dataFromState "projects/demo-proj/defaultBucket"
    [("project", "demo-proj"), ("bucket_name", "old-name")]

/-- A 200 body with two members that both select the field `name`. -/
def twoNamesBody : JsonValue :=
  .obj [("name", .str "a"), ("Name", .str "b")]

/-! ## Lemmas on maps and resource data -/

theorem mapGet_mapSet_same {α : Type} (m : List (String × α)) (key : String) (value : α) :
    mapGet (mapSet m key value) key = some value := by
  induction m with
  | nil => simp [mapSet, mapGet]
  | cons kv rest ih =>
    obtain ⟨k, v⟩ := kv
    by_cases h : k = key
    · simp [mapSet, mapGet, h]
    · simp [mapSet, mapGet, h, ih]

theorem mapGet_mapSet_other {α : Type} (m : List (String × α)) (key other : String) (value : α)
    (hne : other ≠ key) : mapGet (mapSet m key value) other = mapGet m other := by
  induction m with
  | nil =>
    have h : ¬ key = other := fun h => hne h.symm
    simp [mapSet, mapGet, h]
  | cons kv rest ih =>
    obtain ⟨k, v⟩ := kv
    by_cases h : k = key
    · subst h
      have h2 : ¬ k = other := fun h => hne h.symm
      simp [mapSet, mapGet, h2]
    · by_cases h3 : k = other
      · subst h3
        simp [mapSet, mapGet, h]
      · simp [mapSet, mapGet, h, h3, ih]

theorem schema_project :
    mapGet resourceDefaultBucketSchema "project" =
      some { Typ := .TypeString, Required := true, ForceNew := true,
             Description := "The Firebase project ID." } := by
  decide

theorem schema_bucket_name :
    mapGet resourceDefaultBucketSchema "bucket_name" =
      some { Typ := .TypeString, Computed := true,
             Description := "The name of the default bucket." } := by
  decide

theorem schema_location :
    mapGet resourceDefaultBucketSchema "location" =
      some { Typ := .TypeString, Optional := true, Default := some "us", ForceNew := true,
             Description := "The location of the default bucket (e.g., 'us')." } := by
  decide

theorem get_project (d : ResourceData) :
    d.Get resourceDefaultBucketSchema "project" =
      (mapGet d.setWriter "project").getD
        ((mapGet d.diff "project").getD ((mapGet d.state "project").getD "")) := by
  simp only [ResourceData.Get, schema_project]
  cases mapGet d.setWriter "project" <;> cases mapGet d.diff "project" <;> rfl

theorem get_bucket_name (d : ResourceData) :
    d.Get resourceDefaultBucketSchema "bucket_name" =
      (mapGet d.setWriter "bucket_name").getD
        ((mapGet d.diff "bucket_name").getD ((mapGet d.state "bucket_name").getD "")) := by
  simp only [ResourceData.Get, schema_bucket_name]
  cases mapGet d.setWriter "bucket_name" <;> cases mapGet d.diff "bucket_name" <;> rfl

theorem get_location (d : ResourceData) :
    d.Get resourceDefaultBucketSchema "location" =
      (mapGet d.setWriter "location").getD
        ((mapGet d.diff "location").getD ((mapGet d.state "location").getD "")) := by
  simp only [ResourceData.Get, schema_location]
  cases mapGet d.setWriter "location" <;> cases mapGet d.diff "location" <;> rfl

theorem set_bucket_name (d : ResourceData) (value : String) :
    d.Set resourceDefaultBucketSchema "bucket_name" value =
      .ok { d with setWriter := mapSet d.setWriter "bucket_name" value } := by
  simp only [ResourceData.Set, schema_bucket_name]

theorem set_project (d : ResourceData) (value : String) :
    d.Set resourceDefaultBucketSchema "project" value =
      .ok { d with setWriter := mapSet d.setWriter "project" value } := by
  simp only [ResourceData.Set, schema_project]

theorem set_location (d : ResourceData) (value : String) :
    d.Set resourceDefaultBucketSchema "location" value =
      .ok { d with setWriter := mapSet d.setWriter "location" value } := by
  simp only [ResourceData.Set, schema_location]

theorem schemaDiff_location (config : List (String × String)) :
    mapGet (schemaDiff resourceDefaultBucketSchema config) "location" =
      some ((mapGet config "location").getD "us") := by
  cases h1 : mapGet config "project" <;> cases h2 : mapGet config "bucket_name" <;>
    cases h3 : mapGet config "location" <;>
    simp [schemaDiff, resourceDefaultBucketSchema, List.filterMap, h1, h2, h3, mapGet]

/-! ## Lemmas on decoding -/

theorem decodeMembers_no_name (members : List (String × JsonValue)) (bucket : String)
    (err : Option String) (h : nameValues members = []) :
    decodeMembers members bucket err = (bucket, err) := by
  induction members with
  | nil => rfl
  | cons kv rest ih =>
    obtain ⟨k, v⟩ := kv
    by_cases hk : nameMatches k = true
    · simp [nameValues, List.filter, hk] at h
    · have hrest : nameValues rest = [] := by
        simpa [nameValues, List.filter, hk] using h
      simp [decodeMembers, hk, ih hrest]

theorem decodeMembers_one_name (members : List (String × JsonValue)) (bucket N : String)
    (err : Option String) (h : nameValues members = [.str N]) :
    decodeMembers members bucket err = (N, err) := by
  induction members generalizing bucket with
  | nil => simp [nameValues] at h
  | cons kv rest ih =>
    obtain ⟨k, v⟩ := kv
    by_cases hk : nameMatches k = true
    · have h2 : v = .str N ∧ nameValues rest = [] := by
        simpa [nameValues, List.filter, hk] using h
      obtain ⟨hv, hrest⟩ := h2
      subst hv
      simp [decodeMembers, hk, decodeMembers_no_name rest N err hrest]
    · have hrest : nameValues rest = [.str N] := by
        simpa [nameValues, List.filter, hk] using h
      simp [decodeMembers, hk, ih bucket hrest]

theorem decode_one_name (members : List (String × JsonValue)) (N : String)
    (h : nameValues members = [.str N]) : Decode (.ok (.obj members)) = .ok N := by
  simp [Decode, decodeMembers_one_name members "" N none h]

theorem decodeMembers_keeps_error (members : List (String × JsonValue)) (bucket e : String) :
    (decodeMembers members bucket (some e)).2 = some e := by
  induction members generalizing bucket with
  | nil => rfl
  | cons kv rest ih =>
    obtain ⟨k, v⟩ := kv
    by_cases hk : nameMatches k = true
    · cases v <;> simp [decodeMembers, hk, ih, HOrElse.hOrElse, OrElse.orElse, Option.orElse]
    · simp [decodeMembers, hk, ih]

theorem orElse_some_eq (err : Option String) (msg : String) :
    (err <|> some msg) = some (err.getD msg) := by
  cases err <;> rfl

theorem decodeMembers_rejected (members : List (String × JsonValue)) (bucket : String)
    (err : Option String) (h : (nameValues members).any notStringOrNull = true) :
    ∃ e, (decodeMembers members bucket err).2 = some e := by
  induction members generalizing bucket err with
  | nil => simp [nameValues] at h
  | cons kv rest ih =>
    obtain ⟨k, v⟩ := kv
    by_cases hk : nameMatches k = true
    · have h2 : notStringOrNull v = true ∨ (nameValues rest).any notStringOrNull = true := by
        simpa [nameValues, List.filter, hk] using h
      cases v with
      | str s =>
        rcases h2 with h2 | h2
        · simp [notStringOrNull] at h2
        · simpa [decodeMembers, hk] using ih s err h2
      | null =>
        rcases h2 with h2 | h2
        · simp [notStringOrNull] at h2
        · simpa [decodeMembers, hk] using ih bucket err h2
      | bool b =>
        simp only [decodeMembers, hk, if_true, orElse_some_eq]
        exact ⟨_, decodeMembers_keeps_error rest bucket _⟩
      | num n =>
        simp only [decodeMembers, hk, if_true, orElse_some_eq]
        exact ⟨_, decodeMembers_keeps_error rest bucket _⟩
      | arr xs =>
        simp only [decodeMembers, hk, if_true, orElse_some_eq]
        exact ⟨_, decodeMembers_keeps_error rest bucket _⟩
      | obj ms =>
        simp only [decodeMembers, hk, if_true, orElse_some_eq]
        exact ⟨_, decodeMembers_keeps_error rest bucket _⟩
    · have hrest : (nameValues rest).any notStringOrNull = true := by
        simpa [nameValues, List.filter, hk] using h
      simpa [decodeMembers, hk] using ih bucket err hrest

theorem decode_rejected (body : Except String JsonValue) (h : bodyRejected body = true) :
    ∃ e, Decode body = .error e := by
  cases body with
  | error e => exact ⟨e, rfl⟩
  | ok v =>
    cases v with
    | null => simp [bodyRejected] at h
    | bool b => exact ⟨_, rfl⟩
    | num n => exact ⟨_, rfl⟩
    | str s => exact ⟨_, rfl⟩
    | arr xs => exact ⟨_, rfl⟩
    | obj ms =>
      obtain ⟨e, he⟩ := decodeMembers_rejected ms "" none (by simpa [bodyRejected] using h)
      refine ⟨e, ?_⟩
      rcases hd : decodeMembers ms "" none with ⟨b, r⟩
      rw [hd] at he
      simp only at he
      subst he
      simp [Decode, hd]

/-! ## Lemmas on the transport client and the probe -/

theorem doRequest_nil_accepted (c : FirebaseClient) (net : NetHTTP) (method url : String)
    (h : net.requestError method url = none) :
    c.DoRequest net method url none =
      (c.HTTPClient { Method := if method = "" then "GET" else method, URL := url,
                      Header := [], Body := none },
       [{ Method := if method = "" then "GET" else method, URL := url,
          Header := [], Body := none }]) := by
  simp [FirebaseClient.DoRequest, NewRequestWithContext, h]

theorem doRequest_nil_refused (c : FirebaseClient) (net : NetHTTP) (method url e : String)
    (h : net.requestError method url = some e) :
    c.DoRequest net method url none = (.error ("failed to create request: " ++ e), []) := by
  simp [FirebaseClient.DoRequest, NewRequestWithContext, h]

theorem doRequest_get_answered (c : FirebaseClient) (net : NetHTTP) (url : String)
    (resp : Response) (h : (c.DoRequest net "GET" url none).1 = .ok resp) :
    (c.DoRequest net "GET" url none).2 =
      [{ Method := "GET", URL := url, Header := [], Body := none }] := by
  cases hr : net.requestError "GET" url with
  | some e => simp [doRequest_nil_refused c net "GET" url e hr] at h
  | none => simp [doRequest_nil_accepted c net "GET" url hr]

theorem check_unfold (net : NetHTTP) (client : FirebaseClient) (project : String)
    (r : Except String Response) (sent : List Request)
    (h : client.DoRequest net "GET" (defaultBucketURL project) none = (r, sent)) :
    checkDefaultBucketExists net client project =
      ((match r with
        | .error err => (false, "", some ("failed to check default bucket: " ++ err))
        | .ok resp =>
          if resp.StatusCode = 404 then (false, "", none)
          else if resp.StatusCode ≠ 200 then
            (false, "",
              some ("unexpected status when checking default bucket: " ++
                toString resp.StatusCode))
          else
            match Decode resp.Body with
            | .error err =>
              (false, "", some ("failed to decode default bucket response: " ++ err))
            | .ok bucket => (true, bucket, none)), sent) := by
  unfold defaultBucketURL at h
  simp only [checkDefaultBucketExists, h]
  cases r with
  | error e => rfl
  | ok resp =>
    simp only
    split
    · rfl
    · split
      · rfl
      · split <;> rfl

theorem check_sent (net : NetHTTP) (client : FirebaseClient) (project : String) :
    (checkDefaultBucketExists net client project).2 =
      (client.DoRequest net "GET" (defaultBucketURL project) none).2 := by
  rcases hd : client.DoRequest net "GET" (defaultBucketURL project) none with ⟨r, sent⟩
  rw [check_unfold net client project r sent hd]

theorem check_transport_error (net : NetHTTP) (client : FirebaseClient) (project e : String)
    (h : (client.DoRequest net "GET" (defaultBucketURL project) none).1 = .error e) :
    (checkDefaultBucketExists net client project).1 =
      (false, "", some ("failed to check default bucket: " ++ e)) := by
  rcases hd : client.DoRequest net "GET" (defaultBucketURL project) none with ⟨r, sent⟩
  rw [hd] at h
  simp only at h
  subst h
  rw [check_unfold net client project _ sent hd]

theorem check_answered (net : NetHTTP) (client : FirebaseClient) (project : String)
    (resp : Response)
    (h : (client.DoRequest net "GET" (defaultBucketURL project) none).1 = .ok resp) :
    (checkDefaultBucketExists net client project).1 =
      if resp.StatusCode = 404 then (false, "", none)
      else if resp.StatusCode ≠ 200 then
        (false, "",
          some ("unexpected status when checking default bucket: " ++ toString resp.StatusCode))
      else
        match Decode resp.Body with
        | .error err => (false, "", some ("failed to decode default bucket response: " ++ err))
        | .ok bucket => (true, bucket, none) := by
  rcases hd : client.DoRequest net "GET" (defaultBucketURL project) none with ⟨r, sent⟩
  rw [hd] at h
  simp only at h
  subst h
  rw [check_unfold net client project _ sent hd]

theorem check_error_shape (net : NetHTTP) (client : FirebaseClient) (project e : String)
    (h : (checkDefaultBucketExists net client project).1.2.2 = some e) :
    (checkDefaultBucketExists net client project).1 = (false, "", some e) := by
  cases hr : (client.DoRequest net "GET" (defaultBucketURL project) none).1 with
  | error e0 =>
    rw [check_transport_error net client project e0 hr] at h ⊢
    simp only [Option.some.injEq] at h
    rw [h]
  | ok resp =>
    rw [check_answered net client project resp hr] at h ⊢
    split at h
    · simp at h
    · split at h
      · simp only [Option.some.injEq] at h
        simp [*]
      · split at h
        · simp only [Option.some.injEq] at h
          simp [*]
        · simp at h

theorem create_of_check_error (net : NetHTTP) (d : ResourceData) (client : FirebaseClient)
    (found : Bool) (name e : String)
    (h : (checkDefaultBucketExists net client
            (d.Get resourceDefaultBucketSchema "project")).1 = (found, name, some e)) :
    resourceDefaultBucketCreate net d client =
      { diags := FromErr (some e), d := d,
        sent := (checkDefaultBucketExists net client
                  (d.Get resourceDefaultBucketSchema "project")).2 } := by
  rcases hc : checkDefaultBucketExists net client (d.Get resourceDefaultBucketSchema "project")
    with ⟨⟨f, n, e1⟩, sent⟩
  rw [hc] at h
  simp only [Prod.mk.injEq] at h
  obtain ⟨rfl, rfl, rfl⟩ := h
  simp only [resourceDefaultBucketCreate, hc]

theorem create_of_check_found (net : NetHTTP) (d : ResourceData) (client : FirebaseClient)
    (name : String)
    (h : (checkDefaultBucketExists net client
            (d.Get resourceDefaultBucketSchema "project")).1 = (true, name, none)) :
    resourceDefaultBucketCreate net d client =
      { diags := [],
        d := { d with
               id := "projects/" ++ d.Get resourceDefaultBucketSchema "project" ++
                     "/defaultBucket",
               setWriter := mapSet d.setWriter "bucket_name" name },
        sent := (checkDefaultBucketExists net client
                  (d.Get resourceDefaultBucketSchema "project")).2 } := by
  rcases hc : checkDefaultBucketExists net client (d.Get resourceDefaultBucketSchema "project")
    with ⟨⟨f, n, e1⟩, sent⟩
  rw [hc] at h
  simp only [Prod.mk.injEq] at h
  obtain ⟨rfl, rfl, rfl⟩ := h
  simp [resourceDefaultBucketCreate, hc, ResourceData.SetIgnoringError, ResourceData.SetId,
    set_bucket_name]

theorem create_of_check_absent (net : NetHTTP) (d : ResourceData) (client : FirebaseClient)
    (name : String)
    (h : (checkDefaultBucketExists net client
            (d.Get resourceDefaultBucketSchema "project")).1 = (false, name, none)) :
    resourceDefaultBucketCreate net d client =
      { diags := [],
        d := { d with
               id := "projects/" ++ d.Get resourceDefaultBucketSchema "project" ++
                     "/defaultBucket",
               setWriter := mapSet (mapSet d.setWriter "bucket_name" name) "location"
                              (d.Get resourceDefaultBucketSchema "location") },
        sent := (checkDefaultBucketExists net client
                  (d.Get resourceDefaultBucketSchema "project")).2 } := by
  rcases hc : checkDefaultBucketExists net client (d.Get resourceDefaultBucketSchema "project")
    with ⟨⟨f, n, e1⟩, sent⟩
  rw [hc] at h
  simp only [Prod.mk.injEq] at h
  obtain ⟨rfl, rfl, rfl⟩ := h
  simp [resourceDefaultBucketCreate, hc, ResourceData.SetIgnoringError, ResourceData.SetId,
    set_bucket_name, set_location]

theorem read_of_check_error (net : NetHTTP) (d : ResourceData) (client : FirebaseClient)
    (found : Bool) (name e : String)
    (h : (checkDefaultBucketExists net client
            (d.Get resourceDefaultBucketSchema "project")).1 = (found, name, some e)) :
    resourceDefaultBucketRead net d client =
      { diags := FromErr (some e), d := d,
        sent := (checkDefaultBucketExists net client
                  (d.Get resourceDefaultBucketSchema "project")).2 } := by
  rcases hc : checkDefaultBucketExists net client (d.Get resourceDefaultBucketSchema "project")
    with ⟨⟨f, n, e1⟩, sent⟩
  rw [hc] at h
  simp only [Prod.mk.injEq] at h
  obtain ⟨rfl, rfl, rfl⟩ := h
  simp only [resourceDefaultBucketRead, hc]

theorem read_of_check_found (net : NetHTTP) (d : ResourceData) (client : FirebaseClient)
    (name : String)
    (h : (checkDefaultBucketExists net client
            (d.Get resourceDefaultBucketSchema "project")).1 = (true, name, none)) :
    resourceDefaultBucketRead net d client =
      { diags := [],
        d := { d with
               id := "projects/" ++ d.Get resourceDefaultBucketSchema "project" ++
                     "/defaultBucket",
               setWriter :=
                 mapSet
                   (mapSet (mapSet d.setWriter "bucket_name" name) "project"
                     (d.Get resourceDefaultBucketSchema "project"))
                   "location" (d.Get resourceDefaultBucketSchema "location") },
        sent := (checkDefaultBucketExists net client
                  (d.Get resourceDefaultBucketSchema "project")).2 } := by
  rcases hc : checkDefaultBucketExists net client (d.Get resourceDefaultBucketSchema "project")
    with ⟨⟨f, n, e1⟩, sent⟩
  rw [hc] at h
  simp only [Prod.mk.injEq] at h
  obtain ⟨rfl, rfl, rfl⟩ := h
  have h1 : "location" ≠ "project" := by decide
  have h2 : "location" ≠ "bucket_name" := by decide
  simp [resourceDefaultBucketRead, hc, ResourceData.SetId, set_bucket_name, set_location,
    set_project, get_location, mapGet_mapSet_other _ _ _ _ h1, mapGet_mapSet_other _ _ _ _ h2]

theorem read_of_check_absent (net : NetHTTP) (d : ResourceData) (client : FirebaseClient)
    (name : String)
    (h : (checkDefaultBucketExists net client
            (d.Get resourceDefaultBucketSchema "project")).1 = (false, name, none)) :
    resourceDefaultBucketRead net d client =
      { diags := [], d := { d with id := "" },
        sent := (checkDefaultBucketExists net client
                  (d.Get resourceDefaultBucketSchema "project")).2 } := by
  rcases hc : checkDefaultBucketExists net client (d.Get resourceDefaultBucketSchema "project")
    with ⟨⟨f, n, e1⟩, sent⟩
  rw [hc] at h
  simp only [Prod.mk.injEq] at h
  obtain ⟨rfl, rfl, rfl⟩ := h
  simp [resourceDefaultBucketRead, hc, ResourceData.SetId]

/-! ## Read -/

/-- C1: when the probe's GET for project `P` is answered with status 404, the
probe returns `(false, "")` with no error, and read returns no diagnostics and
leaves the identifier empty, whatever it was before. -/
theorem read_clears_id_on_404 (net : NetHTTP) (client : FirebaseClient) (d : ResourceData)
    (P : String) (resp : Response)
    (hP : d.Get resourceDefaultBucketSchema "project" = P)
    (hresp : (client.DoRequest net "GET" (defaultBucketURL P) none).1 = .ok resp)
    (h404 : resp.StatusCode = 404) :
    (checkDefaultBucketExists net client P).1 = (false, "", none) ∧
    (resourceDefaultBucketRead net d client).diags = [] ∧
    (resourceDefaultBucketRead net d client).d.Id = "" := by
  have hc : (checkDefaultBucketExists net client P).1 = (false, "", none) := by
    rw [check_answered net client P resp hresp, if_pos h404]
  subst hP
  rw [read_of_check_absent net d client "" hc]
  exact ⟨hc, rfl, rfl⟩

theorem read_clears_id_on_404_witness :
    demoState.Get resourceDefaultBucketSchema "project" = "demo-proj" ∧
    demoState.Id = "projects/demo-proj/defaultBucket" ∧
    (checkDefaultBucketExists netOk (clientAnswering 404 (.error "EOF")) "demo-proj").1 =
      (false, "", none) ∧
    (resourceDefaultBucketRead netOk demoState (clientAnswering 404 (.error "EOF"))).diags = [] ∧
    (resourceDefaultBucketRead netOk demoState (clientAnswering 404 (.error "EOF"))).d.Id = "" :=
  ⟨rfl, rfl,
    read_clears_id_on_404 netOk (clientAnswering 404 (.error "EOF")) demoState "demo-proj"
      { StatusCode := 404, Body := .error "EOF" } rfl rfl rfl⟩

/-- C2, as stated, fails: the 200 body `{"name":"a","Name":"b"}` is a JSON
object whose `name` member is `"a"`, yet read stores `"b"` as `bucket_name`,
because the decoder lets every member whose key matches `name` without
regard to case write the field, the last one winning. -/
theorem read_takes_last_matching_member :
    (resourceDefaultBucketRead netOk demoState (clientAnswering 200 (.ok twoNamesBody))).diags = [] ∧
    (resourceDefaultBucketRead netOk demoState (clientAnswering 200 (.ok twoNamesBody))).d.Get
      resourceDefaultBucketSchema "bucket_name" = "b" :=
  ⟨rfl, rfl⟩

/-- C2, amended: when the probe's GET for project `P` is answered with status
200 and a JSON object in which exactly one member has a key matching `name`
without regard to case, and that member holds the string `N`, read returns no
diagnostics, sets the identifier to `projects/P/defaultBucket`, sets
`bucket_name` to `N`, and leaves `project` and `location` reading as they did
before the call (a location absent before still reads as the empty string). -/
theorem read_refreshes_on_200 (net : NetHTTP) (client : FirebaseClient) (d : ResourceData)
    (P N : String) (resp : Response) (members : List (String × JsonValue))
    (hP : d.Get resourceDefaultBucketSchema "project" = P)
    (hresp : (client.DoRequest net "GET" (defaultBucketURL P) none).1 = .ok resp)
    (h200 : resp.StatusCode = 200)
    (hbody : resp.Body = .ok (.obj members))
    (hname : nameValues members = [.str N]) :
    (resourceDefaultBucketRead net d client).diags = [] ∧
    (resourceDefaultBucketRead net d client).d.Id = "projects/" ++ P ++ "/defaultBucket" ∧
    (resourceDefaultBucketRead net d client).d.Get resourceDefaultBucketSchema "bucket_name" = N ∧
    (resourceDefaultBucketRead net d client).d.Get resourceDefaultBucketSchema "project" =
      d.Get resourceDefaultBucketSchema "project" ∧
    (resourceDefaultBucketRead net d client).d.Get resourceDefaultBucketSchema "location" =
      d.Get resourceDefaultBucketSchema "location" ∧
    (resourceDefaultBucketRead net d client).d.state = d.state ∧
    (resourceDefaultBucketRead net d client).d.diff = d.diff := by
  have h404 : ¬ resp.StatusCode = 404 := by rw [h200]; decide
  have hc : (checkDefaultBucketExists net client P).1 = (true, N, none) := by
    rw [check_answered net client P resp hresp, if_neg h404, if_neg (not_not.mpr h200), hbody,
      decode_one_name members N hname]
  have h1 : "bucket_name" ≠ "location" := by decide
  have h2 : "bucket_name" ≠ "project" := by decide
  have h3 : "project" ≠ "location" := by decide
  subst hP
  rw [read_of_check_found net d client N hc]
  refine ⟨rfl, rfl, ?_, ?_, ?_, rfl, rfl⟩
  · rw [get_bucket_name]
    simp only [mapGet_mapSet_other _ _ _ _ h1, mapGet_mapSet_other _ _ _ _ h2,
      mapGet_mapSet_same, Option.getD_some]
  · generalize d.Get resourceDefaultBucketSchema "project" = p
    rw [get_project]
    simp only [mapGet_mapSet_other _ _ _ _ h3, mapGet_mapSet_same, Option.getD_some]
  · generalize d.Get resourceDefaultBucketSchema "location" = l
    rw [get_location]
    simp only [mapGet_mapSet_same, Option.getD_some]

theorem read_refreshes_on_200_witness :
    (resourceDefaultBucketRead netOk demoStateNoLocation
      (clientAnswering 200 (.ok demoBody))).diags = [] ∧
    (resourceDefaultBucketRead netOk demoStateNoLocation
      (clientAnswering 200 (.ok demoBody))).d.Id = "projects/" ++ "demo-proj" ++ "/defaultBucket" ∧
    (resourceDefaultBucketRead netOk demoStateNoLocation
      (clientAnswering 200 (.ok demoBody))).d.Get
      resourceDefaultBucketSchema "bucket_name" = "projects/demo-proj/defaultBucket" ∧
    (resourceDefaultBucketRead netOk demoStateNoLocation
      (clientAnswering 200 (.ok demoBody))).d.Get
      resourceDefaultBucketSchema "project" = "demo-proj" ∧
    (resourceDefaultBucketRead netOk demoStateNoLocation
      (clientAnswering 200 (.ok demoBody))).d.Get
      resourceDefaultBucketSchema "location" = "" ∧
    (resourceDefaultBucketRead netOk demoStateNoLocation
      (clientAnswering 200 (.ok demoBody))).d.state = demoStateNoLocation.state ∧
    (resourceDefaultBucketRead netOk demoStateNoLocation
      (clientAnswering 200 (.ok demoBody))).d.diff = demoStateNoLocation.diff :=
  read_refreshes_on_200 netOk (clientAnswering 200 (.ok demoBody)) demoStateNoLocation
    "demo-proj" "projects/demo-proj/defaultBucket" { StatusCode := 200, Body := .ok demoBody }
    [("name", .str "projects/demo-proj/defaultBucket"),
     ("location", .str "US"),
     ("bucket", .obj [("name", .str "projects/demo-proj/buckets/demo-proj.firebasestorage.app")]),
     ("storageClass", .str "STANDARD")]
    rfl rfl rfl rfl rfl

/-! ## Unexpected status -/

/-- C3: when the probe's GET is answered with a status other than 200 and 404,
the probe returns `(false, "")` with an error whose message ends in that
status, and create and read return exactly the diagnostics built from that
error. -/
theorem unexpected_status_propagates (net : NetHTTP) (client : FirebaseClient)
    (d : ResourceData) (P : String) (resp : Response)
    (hP : d.Get resourceDefaultBucketSchema "project" = P)
    (hresp : (client.DoRequest net "GET" (defaultBucketURL P) none).1 = .ok resp)
    (hne200 : resp.StatusCode ≠ 200) (hne404 : resp.StatusCode ≠ 404) :
    (checkDefaultBucketExists net client P).1 =
      (false, "",
        some ("unexpected status when checking default bucket: " ++ toString resp.StatusCode)) ∧
    (resourceDefaultBucketCreate net d client).diags =
      [{ Severity := "Error",
         Summary := "unexpected status when checking default bucket: " ++
           toString resp.StatusCode,
         Detail := "" }] ∧
    (resourceDefaultBucketRead net d client).diags =
      [{ Severity := "Error",
         Summary := "unexpected status when checking default bucket: " ++
           toString resp.StatusCode,
         Detail := "" }] ∧
    (resourceDefaultBucketCreate net d client).diags =
      FromErr (checkDefaultBucketExists net client P).1.2.2 ∧
    (resourceDefaultBucketRead net d client).diags =
      FromErr (checkDefaultBucketExists net client P).1.2.2 := by
  have hc : (checkDefaultBucketExists net client P).1 =
      (false, "",
        some ("unexpected status when checking default bucket: " ++
          toString resp.StatusCode)) := by
    rw [check_answered net client P resp hresp, if_neg hne404, if_pos hne200]
  subst hP
  rw [create_of_check_error net d client false "" _ hc,
    read_of_check_error net d client false "" _ hc, hc]
  exact ⟨rfl, rfl, rfl, rfl, rfl⟩

theorem unexpected_status_propagates_witness :
    (500 : Int) ≠ 200 ∧ (500 : Int) ≠ 404 ∧
    (checkDefaultBucketExists netOk (clientAnswering 500 (.error "EOF")) "demo-proj").1 =
      (false, "", some "unexpected status when checking default bucket: 500") ∧
    (resourceDefaultBucketCreate netOk demoData (clientAnswering 500 (.error "EOF"))).diags =
      [{ Severity := "Error",
         Summary := "unexpected status when checking default bucket: 500", Detail := "" }] ∧
    (resourceDefaultBucketRead netOk demoData (clientAnswering 500 (.error "EOF"))).diags =
      [{ Severity := "Error",
         Summary := "unexpected status when checking default bucket: 500", Detail := "" }] :=
  have h := unexpected_status_propagates netOk (clientAnswering 500 (.error "EOF")) demoData
    "demo-proj" { StatusCode := 500, Body := .error "EOF" } rfl rfl (by decide) (by decide)
  ⟨by decide, by decide, h.1, h.2.1, h.2.2.1⟩

/-! ## Bodies that do not decode -/

/-- C4, as stated, fails: a 200 answer whose `name` member is `null` (not a
string) is decoded without error; the probe returns `(true, "")` with no
error and read records the bucket as existing. -/
theorem null_name_is_accepted :
    (checkDefaultBucketExists netOk
        (clientAnswering 200 (.ok (.obj [("name", .null)]))) "demo-proj").1 = (true, "", none) ∧
    (resourceDefaultBucketRead netOk demoData
        (clientAnswering 200 (.ok (.obj [("name", .null)])))).diags = [] ∧
    (resourceDefaultBucketRead netOk demoData
        (clientAnswering 200 (.ok (.obj [("name", .null)])))).d.Id =
      "projects/demo-proj/defaultBucket" :=
  ⟨rfl, rfl, rfl⟩

/-- C4, amended: when the probe's GET is answered with status 200 and a body
from which no complete first JSON value can be read (an empty body, or a
syntax error before the first value ends), or whose first value is neither an
object nor `null`, or is an object with a member whose key matches `name`
without regard to case and whose value is neither a string nor `null`, the
probe returns the decode error (with `(false, "")`, never a result without
an error), and read and create return the diagnostics of that error and
leave the resource data untouched. What follows a complete first value is
not read, so it cannot cause an error. -/
theorem rejected_body_is_an_error (net : NetHTTP) (client : FirebaseClient)
    (d : ResourceData) (P : String) (resp : Response)
    (hP : d.Get resourceDefaultBucketSchema "project" = P)
    (hresp : (client.DoRequest net "GET" (defaultBucketURL P) none).1 = .ok resp)
    (h200 : resp.StatusCode = 200)
    (hbad : bodyRejected resp.Body = true) :
    ∃ e : String,
      Decode resp.Body = .error e ∧
      (checkDefaultBucketExists net client P).1 =
        (false, "", some ("failed to decode default bucket response: " ++ e)) ∧
      (resourceDefaultBucketRead net d client).diags =
        FromErr (some ("failed to decode default bucket response: " ++ e)) ∧
      (resourceDefaultBucketRead net d client).diags ≠ [] ∧
      (resourceDefaultBucketRead net d client).d = d ∧
      (resourceDefaultBucketCreate net d client).diags =
        FromErr (some ("failed to decode default bucket response: " ++ e)) ∧
      (resourceDefaultBucketCreate net d client).diags ≠ [] ∧
      (resourceDefaultBucketCreate net d client).d = d := by
  obtain ⟨e, he⟩ := decode_rejected resp.Body hbad
  have h404 : ¬ resp.StatusCode = 404 := by rw [h200]; decide
  have hc : (checkDefaultBucketExists net client P).1 =
      (false, "", some ("failed to decode default bucket response: " ++ e)) := by
    rw [check_answered net client P resp hresp, if_neg h404, if_neg (not_not.mpr h200), he]
  subst hP
  refine ⟨e, he, hc, ?_⟩
  rw [create_of_check_error net d client false "" _ hc,
    read_of_check_error net d client false "" _ hc]
  simp [FromErr]

theorem rejected_body_is_an_error_witness :
    bodyRejected (.ok (.obj [("name", .num "5")])) = true ∧
    ∃ e : String,
      Decode (.ok (.obj [("name", .num "5")])) = .error e ∧
      (checkDefaultBucketExists netOk
        (clientAnswering 200 (.ok (.obj [("name", .num "5")]))) "demo-proj").1 =
        (false, "", some ("failed to decode default bucket response: " ++ e)) ∧
      (resourceDefaultBucketRead netOk demoState
        (clientAnswering 200 (.ok (.obj [("name", .num "5")])))).diags =
        FromErr (some ("failed to decode default bucket response: " ++ e)) ∧
      (resourceDefaultBucketRead netOk demoState
        (clientAnswering 200 (.ok (.obj [("name", .num "5")])))).diags ≠ [] ∧
      (resourceDefaultBucketRead netOk demoState
        (clientAnswering 200 (.ok (.obj [("name", .num "5")])))).d = demoState ∧
      (resourceDefaultBucketCreate netOk demoState
        (clientAnswering 200 (.ok (.obj [("name", .num "5")])))).diags =
        FromErr (some ("failed to decode default bucket response: " ++ e)) ∧
      (resourceDefaultBucketCreate netOk demoState
        (clientAnswering 200 (.ok (.obj [("name", .num "5")])))).diags ≠ [] ∧
      (resourceDefaultBucketCreate netOk demoState
        (clientAnswering 200 (.ok (.obj [("name", .num "5")])))).d = demoState :=
  ⟨rfl,
    rejected_body_is_an_error netOk (clientAnswering 200 (.ok (.obj [("name", .num "5")])))
      demoState "demo-proj" { StatusCode := 200, Body := .ok (.obj [("name", .num "5")]) }
      rfl rfl rfl rfl⟩

/-! ## Create -/

/-- C5: when the probe's GET for project `P` is answered with status 404,
create returns no diagnostics, sets the identifier to
`projects/P/defaultBucket`, stores the empty string as `bucket_name` whatever
was held before, stores as `location` the value it read before the call, which
for data planned from a configuration is the declared location, `us` when
none is declared, and sends nothing but the one probe GET. -/
theorem create_on_404 (net : NetHTTP) (client : FirebaseClient) (d : ResourceData)
    (P : String) (resp : Response)
    (hP : d.Get resourceDefaultBucketSchema "project" = P)
    (hresp : (client.DoRequest net "GET" (defaultBucketURL P) none).1 = .ok resp)
    (h404 : resp.StatusCode = 404) :
    (resourceDefaultBucketCreate net d client).diags = [] ∧
    (resourceDefaultBucketCreate net d client).d.Id = "projects/" ++ P ++ "/defaultBucket" ∧
    mapGet (resourceDefaultBucketCreate net d client).d.setWriter "bucket_name" = some "" ∧
    (resourceDefaultBucketCreate net d client).d.Get resourceDefaultBucketSchema "bucket_name" = "" ∧
    mapGet (resourceDefaultBucketCreate net d client).d.setWriter "location" =
      some (d.Get resourceDefaultBucketSchema "location") ∧
    (resourceDefaultBucketCreate net d client).d.Get resourceDefaultBucketSchema "location" =
      d.Get resourceDefaultBucketSchema "location" ∧
    (∀ config : List (String × String),
      mapGet d.setWriter "location" = none →
      d.diff = schemaDiff resourceDefaultBucketSchema config →
      (resourceDefaultBucketCreate net d client).d.Get resourceDefaultBucketSchema "location" =
        (mapGet config "location").getD "us") ∧
    (resourceDefaultBucketCreate net d client).sent =
      [{ Method := "GET",
         URL := "https://firebasestorage.googleapis.com/v1alpha/projects/" ++ P ++ "/defaultBucket",
         Header := [], Body := none }] := by
  have hc : (checkDefaultBucketExists net client P).1 = (false, "", none) := by
    rw [check_answered net client P resp hresp, if_pos h404]
  have hs := doRequest_get_answered client net (defaultBucketURL P) resp hresp
  have h5 : "bucket_name" ≠ "location" := by decide
  have hloc : ∀ config : List (String × String),
      mapGet d.setWriter "location" = none →
      d.diff = schemaDiff resourceDefaultBucketSchema config →
      d.Get resourceDefaultBucketSchema "location" = (mapGet config "location").getD "us" := by
    intro config hset hdiff
    rw [get_location, hset, hdiff, schemaDiff_location]
    rfl
  subst hP
  rw [create_of_check_absent net d client "" hc, check_sent, hs]
  have hget : ∀ l : String,
      ResourceData.Get resourceDefaultBucketSchema
        { d with
          id := "projects/" ++ d.Get resourceDefaultBucketSchema "project" ++ "/defaultBucket",
          setWriter := mapSet (mapSet d.setWriter "bucket_name" "") "location" l }
        "location" = l := by
    intro l
    rw [get_location]
    simp only [mapGet_mapSet_same, Option.getD_some]
  refine ⟨rfl, rfl, ?_, ?_, ?_, hget _, ?_, rfl⟩
  · simp only [mapGet_mapSet_other _ _ _ _ h5, mapGet_mapSet_same]
  · rw [get_bucket_name]
    simp only [mapGet_mapSet_other _ _ _ _ h5, mapGet_mapSet_same, Option.getD_some]
  · simp only [mapGet_mapSet_same]
  · intro config hset hdiff
    rw [hget]
    exact hloc config hset hdiff

theorem create_on_404_witness :
    (resourceDefaultBucketCreate netOk demoData (clientAnswering 404 (.error "EOF"))).diags = [] ∧
    (resourceDefaultBucketCreate netOk demoData (clientAnswering 404 (.error "EOF"))).d.Id =
      "projects/demo-proj/defaultBucket" ∧
    (resourceDefaultBucketCreate netOk demoData (clientAnswering 404 (.error "EOF"))).d.Get
      resourceDefaultBucketSchema "bucket_name" = "" ∧
    mapGet [("project", "demo-proj")] "location" = none ∧
    (resourceDefaultBucketCreate netOk demoData (clientAnswering 404 (.error "EOF"))).d.Get
      resourceDefaultBucketSchema "location" = "us" ∧
    (resourceDefaultBucketCreate netOk demoData (clientAnswering 404 (.error "EOF"))).sent =
      [{ Method := "GET",
         URL := "https://firebasestorage.googleapis.com/v1alpha/projects/demo-proj/defaultBucket",
         Header := [], Body := none }] :=
  have h := create_on_404 netOk (clientAnswering 404 (.error "EOF")) demoData "demo-proj"
    { StatusCode := 404, Body := .error "EOF" } rfl rfl rfl
  ⟨h.1, h.2.1, h.2.2.2.1, rfl, h.2.2.2.2.2.2.1 [("project", "demo-proj")] rfl rfl, h.2.2.2.2.2.2.2⟩

/-- C6, as stated, fails: the 200 body `{"name":"a","Name":"b"}` is a JSON
object whose `name` member is `"a"`, yet create stores `"b"` as
`bucket_name`: every member whose key matches `name` without regard to case
writes the field, the last one winning. -/
theorem create_takes_last_matching_member :
    (resourceDefaultBucketCreate netOk demoData
      (clientAnswering 200 (.ok twoNamesBody))).diags = [] ∧
    (resourceDefaultBucketCreate netOk demoData
      (clientAnswering 200 (.ok twoNamesBody))).d.Get
      resourceDefaultBucketSchema "bucket_name" = "b" :=
  ⟨rfl, rfl⟩

/-- C6, amended: when the probe's GET for project `P` is answered with status
200 and a JSON object in which exactly one member has a key matching `name`
without regard to case, and that member holds the string `N`, create returns
no diagnostics, sets the identifier to `projects/P/defaultBucket` and
`bucket_name` to `N`, writes nothing else (so `location` is not written and
reads as before), and any other resource data of the same project, whatever
its declared location and bucket name, ends with the same identifier and
`bucket_name`. -/
theorem create_adopts_on_200 (net : NetHTTP) (client : FirebaseClient) (d d2 : ResourceData)
    (P N : String) (resp : Response) (members : List (String × JsonValue))
    (hP : d.Get resourceDefaultBucketSchema "project" = P)
    (hP2 : d2.Get resourceDefaultBucketSchema "project" = P)
    (hresp : (client.DoRequest net "GET" (defaultBucketURL P) none).1 = .ok resp)
    (h200 : resp.StatusCode = 200)
    (hbody : resp.Body = .ok (.obj members))
    (hname : nameValues members = [.str N]) :
    (resourceDefaultBucketCreate net d client).diags = [] ∧
    (resourceDefaultBucketCreate net d client).d.Id = "projects/" ++ P ++ "/defaultBucket" ∧
    (resourceDefaultBucketCreate net d client).d.Get resourceDefaultBucketSchema "bucket_name" = N ∧
    (resourceDefaultBucketCreate net d client).d =
      { d with id := "projects/" ++ P ++ "/defaultBucket",
               setWriter := mapSet d.setWriter "bucket_name" N } ∧
    mapGet (resourceDefaultBucketCreate net d client).d.setWriter "location" =
      mapGet d.setWriter "location" ∧
    (resourceDefaultBucketCreate net d client).d.Get resourceDefaultBucketSchema "location" =
      d.Get resourceDefaultBucketSchema "location" ∧
    (resourceDefaultBucketCreate net d2 client).d.Id =
      (resourceDefaultBucketCreate net d client).d.Id ∧
    (resourceDefaultBucketCreate net d2 client).d.Get resourceDefaultBucketSchema "bucket_name" =
      (resourceDefaultBucketCreate net d client).d.Get resourceDefaultBucketSchema "bucket_name" := by
  have h404 : ¬ resp.StatusCode = 404 := by rw [h200]; decide
  have hc : (checkDefaultBucketExists net client P).1 = (true, N, none) := by
    rw [check_answered net client P resp hresp, if_neg h404, if_neg (not_not.mpr h200), hbody,
      decode_one_name members N hname]
  have hc2 := hc
  have h5 : "location" ≠ "bucket_name" := by decide
  rw [← hP] at hc
  rw [← hP2] at hc2
  rw [create_of_check_found net d client N hc, create_of_check_found net d2 client N hc2]
  simp only [ResourceData.Id, get_bucket_name, get_location, mapGet_mapSet_same,
    Option.getD_some, mapGet_mapSet_other _ _ _ _ h5, hP, hP2, and_self]

theorem create_adopts_on_200_witness :
    (resourceDefaultBucketCreate netOk demoData (clientAnswering 200 (.ok demoBody))).diags = [] ∧
    (resourceDefaultBucketCreate netOk demoData (clientAnswering 200 (.ok demoBody))).d.Id =
      "projects/demo-proj/defaultBucket" ∧
    (resourceDefaultBucketCreate netOk demoData (clientAnswering 200 (.ok demoBody))).d.Get
      resourceDefaultBucketSchema "bucket_name" = "projects/demo-proj/defaultBucket" ∧
    (resourceDefaultBucketCreate netOk demoData (clientAnswering 200 (.ok demoBody))).d.setWriter =
      [("bucket_name", "projects/demo-proj/defaultBucket")] ∧
    (resourceDefaultBucketCreate netOk demoState (clientAnswering 200 (.ok demoBody))).d.Id =
      (resourceDefaultBucketCreate netOk demoData (clientAnswering 200 (.ok demoBody))).d.Id ∧
    (resourceDefaultBucketCreate netOk demoState (clientAnswering 200 (.ok demoBody))).d.Get
      resourceDefaultBucketSchema "bucket_name" =
      (resourceDefaultBucketCreate netOk demoData (clientAnswering 200 (.ok demoBody))).d.Get
        resourceDefaultBucketSchema "bucket_name" :=
  have h := create_adopts_on_200 netOk (clientAnswering 200 (.ok demoBody)) demoData demoState
    "demo-proj" "projects/demo-proj/defaultBucket" { StatusCode := 200, Body := .ok demoBody }
    [("name", .str "projects/demo-proj/defaultBucket"),
     ("location", .str "US"),
     ("bucket", .obj [("name", .str "projects/demo-proj/buckets/demo-proj.firebasestorage.app")]),
     ("storageClass", .str "STANDARD")]
    rfl rfl rfl rfl rfl rfl
  ⟨h.1, h.2.1, h.2.2.1, rfl, h.2.2.2.2.2.2.1, h.2.2.2.2.2.2.2⟩

/-! ## Delete -/

/-- C7: for every resource data and every client, delete returns no
diagnostics, leaves the identifier empty, changes nothing else in the
resource data (so project, bucket_name and location read as before), and
sends no request. -/
theorem delete_clears_id_only (net : NetHTTP) (client : FirebaseClient) (d : ResourceData) :
    (resourceDefaultBucketDelete net d client).diags = [] ∧
    (resourceDefaultBucketDelete net d client).d.Id = "" ∧
    (resourceDefaultBucketDelete net d client).d = { d with id := "" } ∧
    (resourceDefaultBucketDelete net d client).d.Get resourceDefaultBucketSchema "project" =
      d.Get resourceDefaultBucketSchema "project" ∧
    (resourceDefaultBucketDelete net d client).d.Get resourceDefaultBucketSchema "bucket_name" =
      d.Get resourceDefaultBucketSchema "bucket_name" ∧
    (resourceDefaultBucketDelete net d client).d.Get resourceDefaultBucketSchema "location" =
      d.Get resourceDefaultBucketSchema "location" ∧
    (resourceDefaultBucketDelete net d client).sent = [] :=
  ⟨rfl, rfl, rfl, rfl, rfl, rfl, rfl⟩

/-! ## Provider configuration -/

/-- C8, on the code: the provider schema declares `credentials` as a required
(not optional) sensitive string, so a configuration without it fails
validation; the configure function itself, given no credentials, builds the
client from the scopes alone, with no explicit-credentials option. -/
theorem provider_credentials_required
    (newHTTPClient : List ClientOption → Except String (Request → Except String Response)) :
    (mapGet Provider.Schema "credentials").map
        (fun s => (s.Typ, s.Required, s.Optional, s.Sensitive)) =
      some (ValueType.TypeString, true, false, true) ∧
    validateRequired Provider.Schema [] =
      [{ Severity := "Error", Summary := "Missing required argument",
         Detail := "The argument \"credentials\" is required, but no definition was found." }] ∧
    Provider.ConfigureContextFunc newHTTPClient (dataFromConfig providerSchema []) =
      (match newHTTPClient [ClientOption.WithScopes
          ["https://www.googleapis.com/auth/firebase",
           "https://www.googleapis.com/auth/firebase.storage",
           "https://www.googleapis.com/auth/cloud-platform"]] with
       | .error err => .error (FromErr (some err))
       | .ok client => .ok { HTTPClient := client }) := by
  refine ⟨rfl, rfl, ?_⟩
  show providerConfigure newHTTPClient (dataFromConfig providerSchema []) = _
  have hget : ResourceData.GetOk providerSchema (dataFromConfig providerSchema [])
      "credentials" = ("", false) := rfl
  simp only [providerConfigure, hget, NewFirebaseClient, ne_eq, not_true_eq_false, if_false]
  cases newHTTPClient [ClientOption.WithScopes
      ["https://www.googleapis.com/auth/firebase",
       "https://www.googleapis.com/auth/firebase.storage",
       "https://www.googleapis.com/auth/cloud-platform"]] <;> rfl

/-! ## Transport client -/

/-- C9: every request `DoRequest` hands to the HTTP client carries
`Content-Type: application/json` exactly when a body was supplied, and then
its body is the JSON serialization of that body (with no body supplied the
header map is empty and the request has no body); a body that cannot be
serialized yields the marshal error with nothing sent; a serializable body
with an accepted method and URL is sent in one request; and the request sent
by the probe is a GET with no body and no Content-Type header. -/
theorem doRequest_content_type (c : FirebaseClient) (net : NetHTTP) (method url : String)
    (body : Option GoValue) :
    (∀ r ∈ (c.DoRequest net method url body).2,
      (headerGet r.Header "Content-Type" = some "application/json" ↔ body.isSome = true) ∧
      (body = none → r.Header = [] ∧ r.Body = none) ∧
      (∀ b, body = some b → ∃ bytes, b.Marshal = .ok bytes ∧ r.Body = some bytes)) ∧
    (∀ b e, body = some b → b.Marshal = .error e →
      c.DoRequest net method url body =
        (.error ("failed to marshal request body: " ++ e), [])) ∧
    (∀ b bytes, body = some b → b.Marshal = .ok bytes → net.requestError method url = none →
      (c.DoRequest net method url body).2 =
        [{ Method := if method = "" then "GET" else method, URL := url,
           Header := [("Content-Type", "application/json")], Body := some bytes }]) ∧
    (∀ project, ∀ r ∈ (checkDefaultBucketExists net c project).2,
      r.Method = "GET" ∧ r.Body = none ∧ headerGet r.Header "Content-Type" = none) := by
  refine ⟨?_, ?_, ?_, ?_⟩
  · intro r hr
    cases body with
    | none =>
      cases hq : net.requestError method url with
      | some e => simp [doRequest_nil_refused c net method url e hq] at hr
      | none =>
        simp only [doRequest_nil_accepted c net method url hq, List.mem_singleton] at hr
        subst hr
        simp [headerGet]
    | some b =>
      cases hm : b.Marshal with
      | error e => simp [FirebaseClient.DoRequest, hm] at hr
      | ok bytes =>
        cases hq : net.requestError method url with
        | some e => simp [FirebaseClient.DoRequest, NewRequestWithContext, hm, hq] at hr
        | none =>
          simp only [FirebaseClient.DoRequest, NewRequestWithContext, hm, hq,
            List.mem_singleton] at hr
          subst hr
          simp [headerGet, headerSet, hm]
  · intro b e hb hm
    subst hb
    simp [FirebaseClient.DoRequest, hm]
  · intro b bytes hb hm hq
    subst hb
    simp [FirebaseClient.DoRequest, NewRequestWithContext, hm, hq, headerSet]
  · intro project r hr
    rw [check_sent] at hr
    cases hq : net.requestError "GET" (defaultBucketURL project) with
    | some e => simp [doRequest_nil_refused c net "GET" _ e hq] at hr
    | none =>
      simp only [doRequest_nil_accepted c net "GET" _ hq, List.mem_singleton] at hr
      subst hr
      simp [headerGet]

theorem doRequest_content_type_witness :
    (clientUnreachable.DoRequest netOk "POST" "https://example.invalid/v1"
        (some { Marshal := .ok "null" })).2 =
      [{ Method := "POST", URL := "https://example.invalid/v1",
         Header := [("Content-Type", "application/json")], Body := some "null" }] ∧
    clientUnreachable.DoRequest netOk "POST" "https://example.invalid/v1"
        (some { Marshal := .error "json: unsupported type: chan int" }) =
      (.error ("failed to marshal request body: " ++ "json: unsupported type: chan int"), []) :=
  ⟨(doRequest_content_type clientUnreachable netOk "POST" "https://example.invalid/v1"
      (some { Marshal := .ok "null" })).2.2.1 { Marshal := .ok "null" } "null" rfl rfl rfl,
   (doRequest_content_type clientUnreachable netOk "POST" "https://example.invalid/v1"
      (some { Marshal := .error "json: unsupported type: chan int" })).2.1
      { Marshal := .error "json: unsupported type: chan int" }
      "json: unsupported type: chan int" rfl rfl⟩

/-! ## Failure leaves the resource data untouched -/

/-- C10: whenever the probe returns an error, create and read return the
one-element diagnostics of that error (so non-empty) and leave the identifier
and every attribute of the resource data exactly as they were. -/
theorem failure_leaves_state (net : NetHTTP) (client : FirebaseClient) (d : ResourceData)
    (e : String)
    (herr : (checkDefaultBucketExists net client
              (d.Get resourceDefaultBucketSchema "project")).1.2.2 = some e) :
    (resourceDefaultBucketCreate net d client).diags = FromErr (some e) ∧
    (resourceDefaultBucketCreate net d client).diags ≠ [] ∧
    (resourceDefaultBucketCreate net d client).d = d ∧
    (resourceDefaultBucketRead net d client).diags = FromErr (some e) ∧
    (resourceDefaultBucketRead net d client).diags ≠ [] ∧
    (resourceDefaultBucketRead net d client).d = d := by
  have hc := check_error_shape net client _ e herr
  rw [create_of_check_error net d client false "" e hc,
    read_of_check_error net d client false "" e hc]
  simp [FromErr]

theorem failure_leaves_state_witness :
    (resourceDefaultBucketCreate netOk demoState clientUnreachable).diags =
      FromErr (some ("failed to check default bucket: Get \"https://firebasestorage.googleapis.com/v1alpha/" ++
        "projects/demo-proj/defaultBucket\": dial tcp 192.0.2.1:443: connect: connection refused")) ∧
    (resourceDefaultBucketCreate netOk demoState clientUnreachable).diags ≠ [] ∧
    (resourceDefaultBucketCreate netOk demoState clientUnreachable).d = demoState ∧
    (resourceDefaultBucketRead netOk demoState clientUnreachable).diags =
      FromErr (some ("failed to check default bucket: Get \"https://firebasestorage.googleapis.com/v1alpha/" ++
        "projects/demo-proj/defaultBucket\": dial tcp 192.0.2.1:443: connect: connection refused")) ∧
    (resourceDefaultBucketRead netOk demoState clientUnreachable).diags ≠ [] ∧
    (resourceDefaultBucketRead netOk demoState clientUnreachable).d = demoState :=
  failure_leaves_state netOk clientUnreachable demoState
    ("failed to check default bucket: Get \"https://firebasestorage.googleapis.com/v1alpha/" ++
        "projects/demo-proj/defaultBucket\": dial tcp 192.0.2.1:443: connect: connection refused") rfl

end Raptorbase
